import Mathlib

/-!
# Key transparency backend: startup sequence and storage interfaces

A shallow embedding of `backend/backend.go` (flag handling, `openDB`, `openEtcd`,
`openPrivateKey`, `main`) and of the interfaces declared in `db/db.go`.

`main` is a straight-line script over external services.  It is embedded as a
program tree (`Proc`) whose nodes are the statements of the source in order; the
results of the external calls (`sql.Open`, `db.Ping`, `clientv3.New`,
`ioutil.ReadFile`, `signatures.PrivateKeyFromPEM`, `signatures.NewSignatureSigner`)
are supplied by a `World`, over which every theorem quantifies.  A small-step
machine (`step`) executes the tree one statement at a time and records every
external effect in a trace.  The two tasks that `main` starts are recorded as
started; their code is not among the sources, and the wait group is a local
variable of `main` that is not passed to them.
-/

namespace Backend

/-! ## Values -/

/-- Go's `error` values: `none` is `nil`, `some e` an error printing as `e`. -/
abbrev GoError := Option String

/-- The objects `main` handles, recorded by how they were constructed. -/
inductive Obj where
  | nil
  | sqlDB (driverName dataSourceName : String)
  | etcdClient (endpoints : List String)
  | queue (cli : Obj) (mapID : String)
  | tree (db : Obj) (mapID : String)
  | entryMutator
  | appender (db : Obj) (mapID : String) (url : String)
  | privateKey (pem : List UInt8)
  | signatureSigner (key : Obj)
  | signer (queue tree mutat appender sig : Obj)
  deriving DecidableEq, Repr

/-! ## Flags (backend.go, lines 37-44) -/

/-- The value given on the command line for each flag, if it is given at all.
`period` is the number written after `-period`.  Command lines that the flag
package rejects for another reason (an unknown flag, a period that is not a
number) end in `flag.Parse` as the period that is too large does. -/
structure CommandLine where
  db : Option String
  etcd : Option String
  period : Option Nat
  domain : Option String
  maplog : Option String
  key : Option String

/-- The flag variables after `flag.Parse()`. -/
structure Flags where
  serverDBPath : String
  etcdEndpoints : String
  epochDuration : Nat
  mapID : String
  mapLogURL : String
  signingKey : String
  deriving DecidableEq, Repr

/-- Width of Go's `uint` (and of `int`) on the 64-bit platforms the server runs on. -/
def uintBits : Nat := 64

/-- The command line on which no flag is given. -/
def CommandLine.empty : CommandLine :=
  ⟨none, none, none, none, none, none⟩

/-- The six `flag.String` / `flag.Uint` declarations with their defaults, and
`flag.Parse()`: a `period` that does not fit `uint` is a parse error (`none`),
on which `flag.Parse` prints the usage and exits with status 2. -/
def flagParse (c : CommandLine) : Option Flags :=
  let p := c.period.getD 60
  if p < 2 ^ uintBits then
    some
      { serverDBPath := c.db.getD "db"
        etcdEndpoints := c.etcd.getD ""
        epochDuration := p
        mapID := c.domain.getD "example.com"
        mapLogURL := c.maplog.getD ""
        signingKey := c.key.getD "" }
  else none

/-! ## `time.Duration` arithmetic -/

/-- Two's-complement wrap of an integer into `int64`. -/
def wrapInt64 (z : Int) : Int :=
  (z + 2 ^ 63) % 2 ^ 64 - 2 ^ 63

/-- The constant `time.Second`, in nanoseconds. -/
def timeSecond : Int := 1000000000

/-- The conversion `time.Duration(u)` of a `uint` value: `Duration` is `int64`. -/
def durationOfUint (u : Nat) : Int :=
  wrapInt64 (u % 2 ^ uintBits)

/-- Multiplication of two `int64` values, which wraps on overflow. -/
def mulInt64 (a b : Int) : Int :=
  wrapInt64 (a * b)

/-- The argument of `StartSigning` on line 97:
`time.Duration(*epochDuration) * time.Second`. -/
def epochPeriod (f : Flags) : Int :=
  mulInt64 (durationOfUint f.epochDuration) timeSecond

/-! ## `strings.Split` and `strings.Join` -/

/-- Go's `strings.Split(s, sep)` for a one-element separator, on sequences:
the fields between the occurrences of `sep`, in order.  A sequence without
`sep` gives one field, the sequence itself; so does the empty sequence. -/
def splitSeq {α : Type} [DecidableEq α] (sep : α) : List α → List (List α)
  | [] => [[]]
  | c :: cs =>
    if c = sep then [] :: splitSeq sep cs
    else
      match splitSeq sep cs with
      | [] => [[c]]
      | field :: fields => (c :: field) :: fields

/-- Go's `strings.Join(elems, sep)` for a one-element separator, on sequences. -/
def joinSeq {α : Type} (sep : α) : List (List α) → List α
  | [] => []
  | [x] => x
  | x :: y :: rest => x ++ sep :: joinSeq sep (y :: rest)

/-- The call `strings.Split(s, ",")`.  The separator is one ASCII byte, which
never occurs inside the encoding of another character, so splitting the
characters agrees with Go's splitting of the bytes. -/
def Split (s : String) (sep : Char) : List String :=
  (splitSeq sep s.data).map String.mk

/-- The call `strings.Join(elems, ",")`. -/
def Join (elems : List String) (sep : Char) : String :=
  String.mk (joinSeq sep (elems.map String.data))

/-- The `Endpoints` field built on line 59. -/
def etcdEndpointList (f : Flags) : List String :=
  Split f.etcdEndpoints ','

/-- The `DialTimeout` field built on line 60: `5 * time.Second`. -/
def dialTimeout : Int := mulInt64 5 timeSecond

/-! ## Effects, program trees and the machine -/

/-- The external effects of the process, in the order the source performs them. -/
inductive Event where
  | logSetFlags (flag : Nat)
  | flagParse
  | sqlOpen (driverName dataSourceName : String)
  | dbPing (db : Obj)
  | clientv3New (endpoints : List String) (dialTimeout : Int)
  | queueNew (cli : Obj) (mapID : String)
  | sqlhistNew (db : Obj) (mapID : String)
  | entryNew
  | appenderNew (db : Obj) (mapID : String) (url : String)
  | readFile (filename : String)
  | privateKeyFromPEM (pem : List UInt8)
  | newSignatureSigner (key : Obj)
  | signerNew (queue tree mutat appender sig : Obj)
  | goStartSequencing (signer : Obj)
  | goStartSigning (signer : Obj) (d : Int)
  | logPrintf (msg : String)
  | logFatal (msg : String)
  | close (o : Obj)
  deriving DecidableEq, Repr

deriving instance DecidableEq for Except

/-- What the outside world answers: the error value of each fallible call, and
the content of each file.  Calls whose result the source uses without an error
check (`queue.New`, `sqlhist.New`, `entry.New`, `appender.New`, `signer.New`)
are taken to return. -/
structure World where
  err : Event → GoError
  file : String → Except String (List UInt8)

/-- A program: the statements still to be executed.  Continuations receive the
value the statement binds. -/
inductive Proc where
  /-- The end of the body of `main`. -/
  | ret
  /-- Calls `log.Fatal` or `log.Fatalf`: print, then `os.Exit(1)`. -/
  | fatal (msg : String)
  /-- Calls `os.Exit(code)` from the flag package. -/
  | exit (code : Nat)
  /-- An effect whose result cannot be an error. -/
  | emit (e : Event) (k : Proc)
  /-- A call that returns an `error`. -/
  | call (e : Event) (k : GoError → Proc)
  /-- The call `ioutil.ReadFile(filename)`. -/
  | readFile (filename : String) (k : Except String (List UInt8) → Proc)
  /-- The statement `defer o.Close()`. -/
  | deferClose (o : Obj) (k : Proc)
  /-- The declaration `var wg sync.WaitGroup`. -/
  | wgDecl (k : Proc)
  /-- The call `wg.Add(delta)`. -/
  | wgAdd (delta : Int) (k : Proc)
  /-- The call `wg.Wait()`. -/
  | wgWait (k : Proc)

/-- Whether the process is running, has exited through `os.Exit`, or `main` has
returned. -/
inductive Status where
  | running
  | exited (code : Nat)
  | returned
  deriving DecidableEq, Repr

/-- The data of a machine state besides the program counter. -/
structure Store where
  trace : List Event
  wg : Int
  deferred : List Obj
  deriving DecidableEq, Repr

/-- A state of the process: the statements left, the effects so far, the
counter of the wait group `wg`, the stack of deferred `Close` calls. -/
structure State where
  proc : Proc
  store : Store
  status : Status

/-- One statement of the main goroutine.  `wg.Wait()` does not move while the
counter is not zero; a state that has exited or returned does not move. -/
def step (w : World) (s : State) : State :=
  match s.status with
  | .running =>
    match s.proc with
    | .ret =>
      match s.store.deferred with
      | [] => { s with status := .returned }
      | o :: ds =>
        { s with store := { s.store with trace := s.store.trace ++ [.close o], deferred := ds } }
    | .fatal msg =>
      { s with store := { s.store with trace := s.store.trace ++ [.logFatal msg] },
               status := .exited 1 }
    | .exit code => { s with status := .exited code }
    | .emit e k => { s with proc := k, store := { s.store with trace := s.store.trace ++ [e] } }
    | .call e k =>
      { s with proc := k (w.err e), store := { s.store with trace := s.store.trace ++ [e] } }
    | .readFile name k =>
      { s with proc := k (w.file name),
               store := { s.store with trace := s.store.trace ++ [.readFile name] } }
    | .deferClose o k =>
      { s with proc := k, store := { s.store with deferred := o :: s.store.deferred } }
    | .wgDecl k => { s with proc := k, store := { s.store with wg := 0 } }
    | .wgAdd delta k => { s with proc := k, store := { s.store with wg := s.store.wg + delta } }
    | .wgWait k => if s.store.wg = 0 then { s with proc := k } else s
  | _ => s

/-- The state after `n` steps. -/
def exec (w : World) : Nat → State → State
  | 0, s => s
  | n + 1, s => exec w n (step w s)

/-- Running the deferred calls, last deferred first, when `main` returns. -/
def unwind (p : Proc) (trace : List Event) (wg : Int) : List Obj → State
  | [] => ⟨p, ⟨trace, wg, []⟩, .returned⟩
  | o :: ds => unwind p (trace ++ [.close o]) wg ds

/-- The state in which a program comes to rest: the process has exited, `main`
has returned, or `main` is blocked in `wg.Wait()`. -/
def eval (w : World) : Proc → Store → State
  | .ret, st => unwind .ret st.trace st.wg st.deferred
  | .fatal msg, st => ⟨.fatal msg, { st with trace := st.trace ++ [.logFatal msg] }, .exited 1⟩
  | .exit code, st => ⟨.exit code, st, .exited code⟩
  | .emit e k, st => eval w k { st with trace := st.trace ++ [e] }
  | .call e k, st => eval w (k (w.err e)) { st with trace := st.trace ++ [e] }
  | .readFile name k, st => eval w (k (w.file name)) { st with trace := st.trace ++ [.readFile name] }
  | .deferClose o k, st => eval w k { st with deferred := o :: st.deferred }
  | .wgDecl k, st => eval w k { st with wg := 0 }
  | .wgAdd delta k, st => eval w k { st with wg := st.wg + delta }
  | .wgWait k, st => if st.wg = 0 then eval w k st else ⟨.wgWait k, st, .running⟩

/-- The main goroutine is at `wg.Wait()` with a counter that is not zero. -/
def State.blockedInWait (s : State) : Bool :=
  match s.status, s.proc with
  | .running, .wgWait _ => decide (s.store.wg ≠ 0)
  | _, _ => false

/-! ## The program (backend.go, lines 46-104) -/

/-- The constant `log.LstdFlags`. -/
def LstdFlags : Nat := 3

/-- The constant `log.Lshortfile`. -/

def Lshortfile : Nat := 16

/-- The function `openDB` (lines 46-55). -/
def openDB (f : Flags) (ret : Obj → Proc) : Proc :=
  .call (.sqlOpen "sqlite3" f.serverDBPath) fun err =>
    match err with
    | some e => .fatal ("sql.Open(): " ++ e)
    | none =>
      let db := Obj.sqlDB "sqlite3" f.serverDBPath
      .call (.dbPing db) fun err =>
        match err with
        | some e => .fatal ("db.Ping(): " ++ e)
        | none => ret db

/-- The function `openEtcd` (lines 57-66). -/
def openEtcd (f : Flags) (ret : Obj → Proc) : Proc :=
  .call (.clientv3New (etcdEndpointList f) dialTimeout) fun err =>
    match err with
    | some e => .fatal ("Failed to connect to etcd: " ++ e)
    | none => ret (Obj.etcdClient (etcdEndpointList f))

/-- The function `openPrivateKey` (lines 68-79).  Line 73 assigns the error of
`PrivateKeyFromPEM` to `err`; line 74 assigns `err` again before anything reads
it, so the only error tested on line 75 is that of `NewSignatureSigner`.
Line 76 calls `log.Fatal`, not `log.Fatalf`: the verb is printed as it stands. -/
def openPrivateKey (f : Flags) (ret : Obj → Proc) : Proc :=
  .readFile f.signingKey fun r =>
    match r with
    | .error e => .fatal ("Failed to read file " ++ f.signingKey ++ ": " ++ e)
    | .ok pem =>
      .call (.privateKeyFromPEM pem) fun pemErr =>
        let key := match pemErr with
          | none => Obj.privateKey pem
          | some _ => Obj.nil
        .call (.newSignatureSigner key) fun err =>
          match err with
          | some e => .fatal ("Failed to create signer: %v" ++ e)
          | none => ret (Obj.signatureSigner key)

/-- The statements of `main` after `flag.Parse()` (lines 85-103). -/
def mainBody (f : Flags) : Proc :=
  openDB f fun sqldb =>
  .deferClose sqldb <|
  openEtcd f fun etcdCli =>
  .deferClose etcdCli <|
  let queue := Obj.queue etcdCli f.mapID
  .emit (.queueNew etcdCli f.mapID) <|
  let tree := Obj.tree sqldb f.mapID
  .emit (.sqlhistNew sqldb f.mapID) <|
  let mutator := Obj.entryMutator
  .emit .entryNew <|
  let appender := Obj.appender sqldb f.mapID f.mapLogURL
  .emit (.appenderNew sqldb f.mapID f.mapLogURL) <|
  openPrivateKey f fun sig =>
  let signer := Obj.signer queue tree mutator appender sig
  .emit (.signerNew queue tree mutator appender sig) <|
  .emit (.goStartSequencing signer) <|
  .emit (.goStartSigning signer (epochPeriod f)) <|
  .emit (.logPrintf "Signer started.") <|
  .wgDecl <|
  .wgAdd 1 <|
  .wgWait <|
  .ret

/-- The function `main` (lines 81-104). -/
def main (c : CommandLine) : Proc :=
  .emit (.logSetFlags (LstdFlags ||| Lshortfile)) <|
  .emit .flagParse <|
  match flagParse c with
  | none => .exit 2
  | some f => mainBody f

/-- The state in which the process starts. -/
def init (c : CommandLine) : State :=
  ⟨main c, ⟨[], 0, []⟩, .running⟩

/-- The state in which a run of the process comes to rest. -/
def run (w : World) (c : CommandLine) : State :=
  eval w (main c) ⟨[], 0, []⟩

/-! ## The values and effects of a run -/

/-- The key `openPrivateKey` holds after line 73. -/
def keyAfterPEM (w : World) (pem : List UInt8) : Obj :=
  match w.err (.privateKeyFromPEM pem) with
  | none => Obj.privateKey pem
  | some _ => Obj.nil

/-- The database handle `sqldb` of line 85. -/
def sqldbOf (f : Flags) : Obj := Obj.sqlDB "sqlite3" f.serverDBPath

/-- The etcd client `etcdCli` of line 87. -/
def etcdCliOf (f : Flags) : Obj := Obj.etcdClient (etcdEndpointList f)

/-- The queue of line 90. -/
def queueOf (f : Flags) : Obj := Obj.queue (etcdCliOf f) f.mapID

/-- The tree of line 91. -/
def treeOf (f : Flags) : Obj := Obj.tree (sqldbOf f) f.mapID

/-- The appender of line 93. -/
def appenderOf (f : Flags) : Obj := Obj.appender (sqldbOf f) f.mapID f.mapLogURL

/-- The signer of line 95, for the signature signer `sig`. -/
def signerOf (f : Flags) (sig : Obj) : Obj :=
  Obj.signer (queueOf f) (treeOf f) Obj.entryMutator (appenderOf f) sig

/-- The effects up to the opening of the database. -/
def traceDB (f : Flags) : List Event :=
  [.logSetFlags 19, .flagParse, .sqlOpen "sqlite3" f.serverDBPath]

/-- The effects up to the construction of the appender. -/
def traceComponents (f : Flags) : List Event :=
  traceDB f ++
    [.dbPing (sqldbOf f), .clientv3New (etcdEndpointList f) dialTimeout,
     .queueNew (etcdCliOf f) f.mapID, .sqlhistNew (sqldbOf f) f.mapID, .entryNew,
     .appenderNew (sqldbOf f) f.mapID f.mapLogURL, .readFile f.signingKey]

/-- The effects of a startup that gets through `openPrivateKey` with the key
file content `pem`. -/
def traceStarted (w : World) (f : Flags) (pem : List UInt8) : List Event :=
  traceComponents f ++
    [.privateKeyFromPEM pem, .newSignatureSigner (keyAfterPEM w pem),
     .signerNew (queueOf f) (treeOf f) Obj.entryMutator (appenderOf f)
        (Obj.signatureSigner (keyAfterPEM w pem)),
     .goStartSequencing (signerOf f (Obj.signatureSigner (keyAfterPEM w pem))),
     .goStartSigning (signerOf f (Obj.signatureSigner (keyAfterPEM w pem))) (epochPeriod f),
     .logPrintf "Signer started."]

/-! ## Classes of effects -/

/-- The calls of `openDB`: `sql.Open` and `db.Ping`. -/
def Event.isDatabaseCall : Event → Bool
  | .sqlOpen _ _ => true
  | .dbPing _ => true
  | _ => false

/-- The call of `openEtcd`: `clientv3.New`. -/
def Event.isEtcdConnect : Event → Bool
  | .clientv3New _ _ => true
  | _ => false

/-- The constructions of lines 90-95: queue, tree, mutator, appender, signer. -/
def Event.isConstruction : Event → Bool
  | .queueNew _ _ => true
  | .sqlhistNew _ _ => true
  | .entryNew => true
  | .appenderNew _ _ _ => true
  | .signerNew _ _ _ _ _ => true
  | _ => false

/-- The `go` statements of lines 96-97. -/
def Event.isTaskStart : Event → Bool
  | .goStartSequencing _ => true
  | .goStartSigning _ _ => true
  | _ => false

/-- The messages of `log.Fatal` and `log.Fatalf`. -/
def Event.isFatal : Event → Bool
  | .logFatal _ => true
  | _ => false

/-- The first statement of `openPrivateKey`, performed once for each call of it. -/
def Event.isKeyLoad : Event → Bool
  | .readFile _ => true
  | _ => false

/-- The map identifier a construction is keyed by, if it takes one. -/
def Event.mapID? : Event → Option String
  | .queueNew _ d => some d
  | .sqlhistNew _ d => some d
  | .appenderNew _ d _ => some d
  | _ => none

/-- The objects passed as arguments of a call. -/
def Event.args : Event → List Obj
  | .dbPing db => [db]
  | .queueNew cli _ => [cli]
  | .sqlhistNew db _ => [db]
  | .appenderNew db _ _ => [db]
  | .newSignatureSigner key => [key]
  | .signerNew q t m a sig => [q, t, m, a, sig]
  | .goStartSequencing s => [s]
  | .goStartSigning s _ => [s]
  | .close o => [o]
  | _ => []

/-! ## Some worlds -/

/-- The flags when no flag is given. -/
def defaultFlags : Flags :=
  ⟨"db", "", 60, "example.com", "", ""⟩

/-- A world in which every call succeeds and every file is empty. -/
def okWorld : World :=
  ⟨fun _ => none, fun _ => .ok []⟩

/-- A world in which the database cannot be opened. -/
def dbDownWorld : World :=
  ⟨fun e => match e with
    | .sqlOpen _ _ => some "unable to open database file"
    | _ => none,
   fun _ => .ok []⟩

/-- A command line that names the database file, the etcd endpoint and the key
file. -/
def deployed : CommandLine :=
  ⟨some "/var/lib/kt/db.sqlite", some "localhost:2379", none, none, none,
   some "/etc/kt/key.pem"⟩

/-- The flags of `deployed`. -/
def deployedFlags : Flags :=
  ⟨"/var/lib/kt/db.sqlite", "localhost:2379", 60, "example.com", "", "/etc/kt/key.pem"⟩

/-- The files of a machine on which only the key file of `deployed` exists. -/
def keyFileOnly (content : List UInt8) (filename : String) : Except String (List UInt8) :=
  if filename = "/etc/kt/key.pem" then .ok content
  else .error "open: no such file or directory"

/-- A world in which every call succeeds and the key file of `deployed` holds a
key. -/
def startedWorld : World :=
  ⟨fun _ => none, keyFileOnly [0x2d, 0x2d, 0x2d, 0x2d, 0x2d, 0x42, 0x45, 0x47, 0x49, 0x4e]⟩

/-- A world in which the database file cannot be opened: `sql.Open` returns a
handle and `db.Ping` fails. -/
def pingDownWorld : World :=
  ⟨fun e => match e with
    | .dbPing _ => some "unable to open database file"
    | _ => none,
   keyFileOnly [0x2d, 0x2d, 0x2d, 0x2d, 0x2d, 0x42, 0x45, 0x47, 0x49, 0x4e]⟩

/-- The command line `-period 9223372037`. -/
def longPeriod : CommandLine :=
  ⟨none, none, some 9223372037, none, none, none⟩

/-- The calls `openDB`, `openEtcd` and `openPrivateKey` all return: the database
opens and answers the ping, the etcd client connects, the key file is read with
content `pem`, and `NewSignatureSigner` reports no error. -/
def World.startsUp (w : World) (f : Flags) (pem : List UInt8) : Prop :=
  w.err (.sqlOpen "sqlite3" f.serverDBPath) = none ∧
  w.err (.dbPing (sqldbOf f)) = none ∧
  w.err (.clientv3New (etcdEndpointList f) dialTimeout) = none ∧
  w.file f.signingKey = .ok pem ∧
  w.err (.newSignatureSigner (keyAfterPEM w pem)) = none

/-- Whether a startup is successful can be computed. -/
instance World.decidableStartsUp (w : World) (f : Flags) (pem : List UInt8) :
    Decidable (w.startsUp f pem) := by
  unfold World.startsUp
  infer_instance

/-- Modelled from the spec: the package `signatures`, which is not among the
sources.  The spec names the signer identity "a private signing key loaded once
at startup" and makes a bad key file a startup failure that is fatal: a
signature signer is made from a private key, and `NewSignatureSigner` returns
an error when it is given none, that is, the nil key that `PrivateKeyFromPEM`
returns together with its error. -/
def World.rejectsNilKey (w : World) : Prop :=
  w.err (.newSignatureSigner Obj.nil) ≠ none

/-- Whether a world rejects the nil key can be computed. -/
instance World.decidableRejectsNilKey (w : World) : Decidable w.rejectsNilKey := by
  unfold World.rejectsNilKey
  infer_instance

/-- The content of the key file, or the empty content when it cannot be read. -/
def pemOf (w : World) (f : Flags) : List UInt8 :=
  match w.file f.signingKey with
  | .ok pem => pem
  | .error _ => []

end Backend

/-!
# The storage interfaces (db/db.go)

The file declares interfaces only.  Each interface is embedded as a structure of
functions over the state of the receiver; the signatures are those of the
source.  The implementations are not among the sources and are modelled from
the specification.
-/

namespace DB

/-- Go's `error` values: `none` is `nil`. -/
abbrev GoError := Option String

/-- The type `context.Context`: cancellation of the request. -/
structure Context where
  done : Bool
  deriving DecidableEq, Repr

/-- The constant `ChannelSize` (line 27). -/
def ChannelSize : Nat := 100

/-- The struct `Node` (lines 52-55). -/
structure Node where
  index : List UInt8
  value : List UInt8
  deriving DecidableEq, Repr

/-- Modelled from the spec: the message `corepb.EntryStorage`, whose declaration
is not among the sources: the durable record of one applied mutation at one
primary key. -/
structure EntryStorage where
  primaryKey : Nat
  index : List UInt8
  mutation : List UInt8
  deriving DecidableEq, Repr

/-- Modelled from the spec: the message `corepb.EpochInfo`, whose declaration is
not among the sources: the record binding a revision to its signed root digest,
signing timestamp and log receipt. -/
structure EpochInfo where
  revision : Nat
  rootDigest : List UInt8
  timestamp : Nat
  signature : List UInt8
  receipt : List UInt8
  deriving DecidableEq, Repr

/-- The interface `Reader` (lines 80-85). -/
structure Reader (σ : Type) where
  ReadUpdate : σ → Context → Nat → Except String EntryStorage
  ReadEpochInfo : σ → Context → Nat → Except String EpochInfo

/-- The interface `Writer` (lines 87-93); a write returns its error and the
storage it leaves. -/
structure Writer (σ : Type) where
  WriteUpdate : σ → Context → EntryStorage → GoError × σ
  WriteEpochInfo : σ → Context → Nat → EpochInfo → GoError × σ

/-! ## The storage backend -/

/-- Modelled from the spec: the storage backend behind `Reader` and `Writer`, of
which the sources hold no implementation: two tables of rows, each row under a
primary key. -/
structure Storage where
  updates : List EntryStorage
  epochs : List (Nat × EpochInfo)
  deriving DecidableEq, Repr

/-- Modelled from the spec: `ReadUpdate(primaryKey)`, the row under the key. -/
def Storage.ReadUpdate (s : Storage) (_ctx : Context) (primaryKey : Nat) :
    Except String EntryStorage :=
  match s.updates.find? (fun e => e.primaryKey == primaryKey) with
  | some e => .ok e
  | none => .error "not found"

/-- Modelled from the spec: `ReadEpochInfo(primaryKey)`, the row under the key. -/
def Storage.ReadEpochInfo (s : Storage) (_ctx : Context) (primaryKey : Nat) :
    Except String EpochInfo :=
  match s.epochs.find? (fun r => r.1 == primaryKey) with
  | some r => .ok r.2
  | none => .error "not found"

/-- Modelled from the spec: `WriteUpdate`, which inserts a new row and, in the
words of the source comment, "fails if the row already exists"; in the words of
the spec, "writes to an existing primary key must fail (no silent overwrite)". -/
def Storage.WriteUpdate (s : Storage) (_ctx : Context) (entry : EntryStorage) :
    GoError × Storage :=
  match s.updates.find? (fun e => e.primaryKey == entry.primaryKey) with
  | some _ => (some "row already exists", s)
  | none => (none, { s with updates := s.updates ++ [entry] })

/-- Modelled from the spec: `WriteEpochInfo`, under the same rule of the spec:
"writes to an existing primary key must fail (no silent overwrite)". -/
def Storage.WriteEpochInfo (s : Storage) (_ctx : Context) (primaryKey : Nat)
    (epochInfo : EpochInfo) : GoError × Storage :=
  match s.epochs.find? (fun r => r.1 == primaryKey) with
  | some _ => (some "row already exists", s)
  | none => (none, { s with epochs := s.epochs ++ [(primaryKey, epochInfo)] })

/-- The modelled storage as a `Reader`. -/
def storageReader : Reader Storage :=
  ⟨Storage.ReadUpdate, Storage.ReadEpochInfo⟩

/-- The modelled storage as a `Writer`. -/
def storageWriter : Writer Storage :=
  ⟨Storage.WriteUpdate, Storage.WriteEpochInfo⟩

/-! ## The revisioned tree -/

/-- Modelled from the spec: the sparse tree with its history (`sqlhist`), of
which the sources hold no implementation: the populated leaves as rows keyed by
revision and index, newest first, and the current revision. -/
structure HistTree where
  leaves : List (Nat × List UInt8 × List UInt8)
  revision : Nat
  deriving DecidableEq, Repr

/-- The tree before any write, at revision 0. -/
def HistTree.empty : HistTree := ⟨[], 0⟩

/-- A storage with one update row and one epoch row, both under the key 7. -/
def oneRow : Storage :=
  ⟨[⟨7, [0xAA], [1]⟩], [(7, ⟨1, [0x10], 1000, [0x20], [0x30]⟩)]⟩

end DB

/-!
# Theorems
-/

namespace Backend

/-! ## General facts about the machine -/

theorem exec_add (w : World) (n m : Nat) (s : State) :
    exec w (n + m) s = exec w m (exec w n s) := by
  induction n generalizing s with
  | zero => simp [exec]
  | succ n ih => rw [Nat.succ_add]; simp only [exec]; exact ih _

theorem exec_fixed (w : World) (s : State) (h : step w s = s) (n : Nat) :
    exec w n s = s := by
  induction n with
  | zero => rfl
  | succ n ih => simp only [exec, h, ih]

theorem step_not_running (w : World) (s : State) (h : s.status ≠ .running) :
    step w s = s := by
  unfold step
  split
  · rename_i h2; exact absurd h2 h
  · rfl

theorem step_unwind (w : World) (p : Proc) (tr : List Event) (wg : Int) (ds : List Obj) :
    step w (unwind p tr wg ds) = unwind p tr wg ds := by
  induction ds generalizing tr with
  | nil => exact step_not_running w _ (by simp [unwind])
  | cons o ds ih => simpa [unwind] using ih _

theorem exec_unwind (w : World) (tr : List Event) (wg : Int) (ds : List Obj) :
    ∃ n, exec w n ⟨.ret, ⟨tr, wg, ds⟩, .running⟩ = unwind .ret tr wg ds := by
  induction ds generalizing tr with
  | nil => exact ⟨1, by simp [exec, step, unwind]⟩
  | cons o ds ih =>
    obtain ⟨n, hn⟩ := ih (tr ++ [.close o])
    exact ⟨n + 1, by simpa [exec, step, unwind] using hn⟩

/-- The state `eval` computes is a rest state of the machine. -/
theorem step_eval (w : World) (p : Proc) (st : Store) :
    step w (eval w p st) = eval w p st := by
  induction p generalizing st with
  | ret => exact step_unwind w _ _ _ _
  | fatal msg => exact step_not_running w _ (by simp [eval])
  | exit code => exact step_not_running w _ (by simp [eval])
  | emit e k ih => simpa [eval] using ih _
  | call e k ih => simpa [eval] using ih _ _
  | readFile name k ih => simpa [eval] using ih _ _
  | deferClose o k ih => simpa [eval] using ih _
  | wgDecl k ih => simpa [eval] using ih _
  | wgAdd delta k ih => simpa [eval] using ih _
  | wgWait k ih =>
    by_cases h : st.wg = 0
    · simpa [eval, h] using ih st
    · simp [eval, h, step]

/-- The machine reaches the state `eval` computes after finitely many steps. -/
theorem exec_eval (w : World) (p : Proc) (st : Store) :
    ∃ n, exec w n ⟨p, st, .running⟩ = eval w p st := by
  induction p generalizing st with
  | ret => exact exec_unwind w _ _ _
  | fatal msg => exact ⟨1, by simp [exec, step, eval]⟩
  | exit code => exact ⟨1, by simp [exec, step, eval]⟩
  | emit e k ih =>
    obtain ⟨n, hn⟩ := ih { st with trace := st.trace ++ [e] }
    exact ⟨n + 1, by simpa [exec, step, eval] using hn⟩
  | call e k ih =>
    obtain ⟨n, hn⟩ := ih (w.err e) { st with trace := st.trace ++ [e] }
    exact ⟨n + 1, by simpa [exec, step, eval] using hn⟩
  | readFile name k ih =>
    obtain ⟨n, hn⟩ := ih (w.file name) { st with trace := st.trace ++ [.readFile name] }
    exact ⟨n + 1, by simpa [exec, step, eval] using hn⟩
  | deferClose o k ih =>
    obtain ⟨n, hn⟩ := ih { st with deferred := o :: st.deferred }
    exact ⟨n + 1, by simpa [exec, step, eval] using hn⟩
  | wgDecl k ih =>
    obtain ⟨n, hn⟩ := ih { st with wg := 0 }
    exact ⟨n + 1, by simpa [exec, step, eval] using hn⟩
  | wgAdd delta k ih =>
    obtain ⟨n, hn⟩ := ih { st with wg := st.wg + delta }
    exact ⟨n + 1, by simpa [exec, step, eval] using hn⟩
  | wgWait k ih =>
    by_cases h : st.wg = 0
    · obtain ⟨n, hn⟩ := ih st
      exact ⟨n + 1, by simpa [exec, step, eval, h] using hn⟩
    · exact ⟨0, by simp [exec, eval, h]⟩

/-- A step only appends to the trace. -/
theorem step_trace (w : World) (s : State) :
    ∃ t, (step w s).store.trace = s.store.trace ++ t := by
  unfold step
  split
  · split
    · split
      · exact ⟨[], by simp⟩
      · exact ⟨_, rfl⟩
    · exact ⟨_, rfl⟩
    · exact ⟨[], by simp⟩
    · exact ⟨_, rfl⟩
    · exact ⟨_, rfl⟩
    · exact ⟨_, rfl⟩
    · exact ⟨[], by simp⟩
    · exact ⟨[], by simp⟩
    · exact ⟨[], by simp⟩
    · split <;> exact ⟨[], by simp⟩
  · exact ⟨[], by simp⟩

theorem exec_trace (w : World) (n : Nat) (s : State) :
    ∃ t, (exec w n s).store.trace = s.store.trace ++ t := by
  induction n generalizing s with
  | zero => exact ⟨[], by simp [exec]⟩
  | succ n ih =>
    obtain ⟨t1, h1⟩ := step_trace w s
    obtain ⟨t2, h2⟩ := ih (step w s)
    exact ⟨t1 ++ t2, by simp only [exec, h2, h1, List.append_assoc]⟩

/-- Every run comes to rest: from some step on the state is `run w c`. -/
theorem exec_run (w : World) (c : CommandLine) :
    ∃ N, ∀ n, N ≤ n → exec w n (init c) = run w c := by
  obtain ⟨N, hN⟩ := exec_eval w (main c) ⟨[], 0, []⟩
  refine ⟨N, fun n hn => ?_⟩
  obtain ⟨k, rfl⟩ := Nat.exists_eq_add_of_le hn
  rw [exec_add]
  show exec w k (exec w N ⟨main c, ⟨[], 0, []⟩, .running⟩) = run w c
  rw [hN]
  exact exec_fixed w _ (step_eval w _ _) k

/-- The trace of every reachable state is an initial segment of the trace of
the run. -/
theorem trace_reachable (w : World) (c : CommandLine) (n : Nat) :
    ∃ t, (run w c).store.trace = (exec w n (init c)).store.trace ++ t := by
  obtain ⟨N, hN⟩ := exec_run w c
  have h := hN (n + N) (Nat.le_add_left N n)
  rw [exec_add] at h
  obtain ⟨t, ht⟩ := exec_trace w N (exec w n (init c))
  exact ⟨t, by rw [← h, ht]⟩

/-- An event of a reachable state is an event of the run. -/
theorem mem_trace_reachable (w : World) (c : CommandLine) (n : Nat) (e : Event)
    (h : e ∈ (exec w n (init c)).store.trace) : e ∈ (run w c).store.trace := by
  obtain ⟨t, ht⟩ := trace_reachable w c n
  rw [ht]
  exact List.mem_append_left t h

/-! ## The runs of `main`, branch by branch -/

theorem run_flag_error (w : World) (c : CommandLine) (h : flagParse c = none) :
    (run w c).store = ⟨[.logSetFlags 19, .flagParse], 0, []⟩ ∧ (run w c).status = .exited 2 := by
  simp [run, main, eval, h, LstdFlags, Lshortfile]

theorem run_sqlOpen_error (w : World) (c : CommandLine) (f : Flags) (e : String)
    (hf : flagParse c = some f) (h : w.err (.sqlOpen "sqlite3" f.serverDBPath) = some e) :
    (run w c).store = ⟨traceDB f ++ [.logFatal ("sql.Open(): " ++ e)], 0, []⟩ ∧
      (run w c).status = .exited 1 := by
  simp [run, main, eval, hf, h, LstdFlags, Lshortfile, mainBody, openDB, traceDB]

theorem run_dbPing_error (w : World) (c : CommandLine) (f : Flags) (e : String)
    (hf : flagParse c = some f) (h1 : w.err (.sqlOpen "sqlite3" f.serverDBPath) = none)
    (h : w.err (.dbPing (sqldbOf f)) = some e) :
    (run w c).store =
        ⟨traceDB f ++ [.dbPing (sqldbOf f), .logFatal ("db.Ping(): " ++ e)], 0, []⟩ ∧
      (run w c).status = .exited 1 := by
  simp only [sqldbOf] at h
  simp [run, main, eval, hf, h1, h, LstdFlags, Lshortfile, mainBody, openDB, traceDB, sqldbOf]

theorem run_etcd_error (w : World) (c : CommandLine) (f : Flags) (e : String)
    (hf : flagParse c = some f) (h1 : w.err (.sqlOpen "sqlite3" f.serverDBPath) = none)
    (h2 : w.err (.dbPing (sqldbOf f)) = none)
    (h : w.err (.clientv3New (etcdEndpointList f) dialTimeout) = some e) :
    (run w c).store =
        ⟨traceDB f ++ [.dbPing (sqldbOf f), .clientv3New (etcdEndpointList f) dialTimeout,
            .logFatal ("Failed to connect to etcd: " ++ e)], 0, [sqldbOf f]⟩ ∧
      (run w c).status = .exited 1 := by
  simp only [sqldbOf] at h2
  simp [run, main, eval, hf, h1, h2, h, LstdFlags, Lshortfile, mainBody, openDB, openEtcd,
    traceDB, sqldbOf]

theorem run_readFile_error (w : World) (c : CommandLine) (f : Flags) (e : String)
    (hf : flagParse c = some f) (h1 : w.err (.sqlOpen "sqlite3" f.serverDBPath) = none)
    (h2 : w.err (.dbPing (sqldbOf f)) = none)
    (h3 : w.err (.clientv3New (etcdEndpointList f) dialTimeout) = none)
    (h : w.file f.signingKey = .error e) :
    (run w c).store =
        ⟨traceComponents f ++ [.logFatal ("Failed to read file " ++ f.signingKey ++ ": " ++ e)],
          0, [etcdCliOf f, sqldbOf f]⟩ ∧
      (run w c).status = .exited 1 := by
  simp only [sqldbOf] at h2
  simp [run, main, eval, hf, h1, h2, h3, h, LstdFlags, Lshortfile, mainBody, openDB, openEtcd,
    openPrivateKey, traceDB, traceComponents, sqldbOf, etcdCliOf]

theorem run_signer_error (w : World) (c : CommandLine) (f : Flags) (pem : List UInt8)
    (e : String)
    (hf : flagParse c = some f) (h1 : w.err (.sqlOpen "sqlite3" f.serverDBPath) = none)
    (h2 : w.err (.dbPing (sqldbOf f)) = none)
    (h3 : w.err (.clientv3New (etcdEndpointList f) dialTimeout) = none)
    (h4 : w.file f.signingKey = .ok pem)
    (h : w.err (.newSignatureSigner (keyAfterPEM w pem)) = some e) :
    (run w c).store =
        ⟨traceComponents f ++ [.privateKeyFromPEM pem, .newSignatureSigner (keyAfterPEM w pem),
            .logFatal ("Failed to create signer: %v" ++ e)],
          0, [etcdCliOf f, sqldbOf f]⟩ ∧
      (run w c).status = .exited 1 := by
  simp only [sqldbOf] at h2
  simp only [keyAfterPEM] at h
  simp [run, main, eval, hf, h1, h2, h3, h4, h, LstdFlags, Lshortfile, mainBody, openDB,
    openEtcd, openPrivateKey, traceDB, traceComponents, sqldbOf, etcdCliOf, keyAfterPEM]

theorem run_started (w : World) (c : CommandLine) (f : Flags) (pem : List UInt8)
    (hf : flagParse c = some f) (h1 : w.err (.sqlOpen "sqlite3" f.serverDBPath) = none)
    (h2 : w.err (.dbPing (sqldbOf f)) = none)
    (h3 : w.err (.clientv3New (etcdEndpointList f) dialTimeout) = none)
    (h4 : w.file f.signingKey = .ok pem)
    (h : w.err (.newSignatureSigner (keyAfterPEM w pem)) = none) :
    (run w c).store = ⟨traceStarted w f pem, 1, [etcdCliOf f, sqldbOf f]⟩ ∧
      (run w c).status = .running ∧ (run w c).blockedInWait = true := by
  simp only [sqldbOf] at h2
  simp only [keyAfterPEM] at h
  simp [run, main, eval, hf, h1, h2, h3, h4, h, LstdFlags, Lshortfile, mainBody, openDB,
    openEtcd, openPrivateKey, traceDB, traceComponents, traceStarted, sqldbOf, etcdCliOf,
    keyAfterPEM, queueOf, treeOf, appenderOf, signerOf, State.blockedInWait]

/-- The branch a run takes is decided by the answers of the world. -/
theorem run_cases (w : World) (c : CommandLine) :
    flagParse c = none ∨ ∃ f, flagParse c = some f ∧
      ((∃ e, w.err (.sqlOpen "sqlite3" f.serverDBPath) = some e) ∨
       (w.err (.sqlOpen "sqlite3" f.serverDBPath) = none ∧
        ((∃ e, w.err (.dbPing (sqldbOf f)) = some e) ∨
         (w.err (.dbPing (sqldbOf f)) = none ∧
          ((∃ e, w.err (.clientv3New (etcdEndpointList f) dialTimeout) = some e) ∨
           (w.err (.clientv3New (etcdEndpointList f) dialTimeout) = none ∧
            ((∃ e, w.file f.signingKey = .error e) ∨
             ∃ pem, w.file f.signingKey = .ok pem ∧
              ((∃ e, w.err (.newSignatureSigner (keyAfterPEM w pem)) = some e) ∨
               w.err (.newSignatureSigner (keyAfterPEM w pem)) = none)))))))) := by
  cases hf : flagParse c with
  | none => exact Or.inl rfl
  | some f =>
    refine Or.inr ⟨f, rfl, ?_⟩
    cases h1 : w.err (.sqlOpen "sqlite3" f.serverDBPath) with
    | some e => exact Or.inl ⟨e, rfl⟩
    | none =>
      refine Or.inr ⟨rfl, ?_⟩
      cases h2 : w.err (.dbPing (sqldbOf f)) with
      | some e => exact Or.inl ⟨e, rfl⟩
      | none =>
        refine Or.inr ⟨rfl, ?_⟩
        cases h3 : w.err (.clientv3New (etcdEndpointList f) dialTimeout) with
        | some e => exact Or.inl ⟨e, rfl⟩
        | none =>
          refine Or.inr ⟨rfl, ?_⟩
          cases h4 : w.file f.signingKey with
          | error e => exact Or.inl ⟨e, rfl⟩
          | ok pem =>
            refine Or.inr ⟨pem, rfl, ?_⟩
            cases h5 : w.err (.newSignatureSigner (keyAfterPEM w pem)) with
            | some e => exact Or.inl ⟨e, rfl⟩
            | none => exact Or.inr rfl

/-! ## Startup failures -/

/-- The two errors that `openPrivateKey` does test: when the key file cannot be
read, or `NewSignatureSigner` returns an error, the run ends in `os.Exit(1)`, and
neither a signer is constructed nor a task started. -/
theorem openPrivateKey_checked_errors (w : World) (c : CommandLine) (f : Flags)
    (hf : flagParse c = some f) (h1 : w.err (.sqlOpen "sqlite3" f.serverDBPath) = none)
    (h2 : w.err (.dbPing (sqldbOf f)) = none)
    (h3 : w.err (.clientv3New (etcdEndpointList f) dialTimeout) = none)
    (h : (∃ e, w.file f.signingKey = .error e) ∨
      ∃ pem e, w.file f.signingKey = .ok pem ∧
        w.err (.newSignatureSigner (keyAfterPEM w pem)) = some e) :
    (run w c).status = .exited 1 ∧
    (run w c).store.trace.filter Event.isFatal ≠ [] ∧
    (run w c).store.trace.filter Event.isTaskStart = [] ∧
    ∀ q t m a sig, Event.signerNew q t m a sig ∉ (run w c).store.trace := by
  rcases h with ⟨e, h4⟩ | ⟨pem, e, h4, h5⟩
  · obtain ⟨hs, ht⟩ := run_readFile_error w c f e hf h1 h2 h3 h4
    rw [hs, ht]
    simp [traceComponents, traceDB, Event.isFatal, Event.isTaskStart]
  · obtain ⟨hs, ht⟩ := run_signer_error w c f pem e hf h1 h2 h3 h4 h5
    rw [hs, ht]
    simp [traceComponents, traceDB, Event.isFatal, Event.isTaskStart]

/-- The error of `PrivateKeyFromPEM` is not tested by itself: in a run that reads
the key file and in which `PrivateKeyFromPEM` returns an error, the process
exits exactly when `NewSignatureSigner` returns an error for the nil key. -/
theorem pem_error_decided_by_signer (w : World) (c : CommandLine) (f : Flags)
    (pem : List UInt8) (hf : flagParse c = some f)
    (h1 : w.err (.sqlOpen "sqlite3" f.serverDBPath) = none)
    (h2 : w.err (.dbPing (sqldbOf f)) = none)
    (h3 : w.err (.clientv3New (etcdEndpointList f) dialTimeout) = none)
    (h4 : w.file f.signingKey = .ok pem) (hp : w.err (.privateKeyFromPEM pem) ≠ none) :
    (run w c).status = .exited 1 ↔ w.rejectsNilKey := by
  have hnil : keyAfterPEM w pem = Obj.nil := by
    unfold keyAfterPEM
    split
    · rename_i hnone; exact absurd hnone hp
    · rfl
  unfold World.rejectsNilKey
  cases h5 : w.err (.newSignatureSigner Obj.nil) with
  | none =>
    have h5' : w.err (.newSignatureSigner (keyAfterPEM w pem)) = none := by rw [hnil]; exact h5
    rw [(run_started w c f pem hf h1 h2 h3 h4 h5').2.1]
    simp
  | some e =>
    have h5' : w.err (.newSignatureSigner (keyAfterPEM w pem)) = some e := by
      rw [hnil]; exact h5
    rw [(run_signer_error w c f pem e hf h1 h2 h3 h4 h5').2]
    simp

/-- C2: in every run in which `sql.Open`, `db.Ping` or `clientv3.New` returns an
error, the process ends with `os.Exit(1)`, and in no state of the run has a
queue, tree, mutator, appender or signer been constructed or a task been
started; when it is a database call that fails, no state of the run has
attempted the etcd connection. -/
theorem startup_failure_is_fatal (w : World) (c : CommandLine)
    (h : ∃ e ∈ (run w c).store.trace,
      (e.isDatabaseCall || e.isEtcdConnect) = true ∧ w.err e ≠ none) :
    (∃ N, ∀ n, N ≤ n → (exec w n (init c)).status = .exited 1) ∧
    (∀ n, ∀ e ∈ (exec w n (init c)).store.trace,
      e.isConstruction = false ∧ e.isTaskStart = false) ∧
    ((∃ e ∈ (run w c).store.trace, e.isDatabaseCall = true ∧ w.err e ≠ none) →
      ∀ n, ∀ e ∈ (exec w n (init c)).store.trace, e.isEtcdConnect = false) := by
  obtain ⟨N, hN⟩ := exec_run w c
  have key : (run w c).status = .exited 1 ∧
      (∀ e ∈ (run w c).store.trace, e.isConstruction = false ∧ e.isTaskStart = false) ∧
      ((∃ e ∈ (run w c).store.trace, e.isDatabaseCall = true ∧ w.err e ≠ none) →
        ∀ e ∈ (run w c).store.trace, e.isEtcdConnect = false) := by
    rcases run_cases w c with hf | ⟨f, hf, h1 | ⟨h1, h2 | ⟨h2, h3 | ⟨h3, h4 | ⟨pem, h4, h5 | h5⟩⟩⟩⟩⟩
    · obtain ⟨hs, -⟩ := run_flag_error w c hf
      rw [hs] at h
      simp [Event.isDatabaseCall, Event.isEtcdConnect] at h
    · obtain ⟨e, h1⟩ := h1
      obtain ⟨hs, ht⟩ := run_sqlOpen_error w c f e hf h1
      rw [hs, ht]
      simp [traceDB, Event.isConstruction, Event.isTaskStart, Event.isEtcdConnect]
    · obtain ⟨e, h2⟩ := h2
      obtain ⟨hs, ht⟩ := run_dbPing_error w c f e hf h1 h2
      rw [hs, ht]
      simp [traceDB, Event.isConstruction, Event.isTaskStart, Event.isEtcdConnect]
    · obtain ⟨e, h3⟩ := h3
      obtain ⟨hs, ht⟩ := run_etcd_error w c f e hf h1 h2 h3
      rw [hs, ht]
      simp [traceDB, Event.isConstruction, Event.isTaskStart, Event.isEtcdConnect,
        Event.isDatabaseCall, h1, h2]
    · obtain ⟨e, h4⟩ := h4
      obtain ⟨hs, -⟩ := run_readFile_error w c f e hf h1 h2 h3 h4
      rw [hs] at h
      simp [traceComponents, traceDB, Event.isDatabaseCall, Event.isEtcdConnect, h1, h2, h3] at h
    · obtain ⟨e, h5⟩ := h5
      obtain ⟨hs, -⟩ := run_signer_error w c f pem e hf h1 h2 h3 h4 h5
      rw [hs] at h
      simp [traceComponents, traceDB, Event.isDatabaseCall, Event.isEtcdConnect, h1, h2, h3] at h
    · obtain ⟨hs, -⟩ := run_started w c f pem hf h1 h2 h3 h4 h5
      rw [hs] at h
      simp [traceStarted, traceComponents, traceDB, Event.isDatabaseCall, Event.isEtcdConnect,
        h1, h2, h3] at h
  refine ⟨⟨N, fun n hn => by rw [hN n hn]; exact key.1⟩, ?_, ?_⟩
  · exact fun n e he => key.2.1 e (mem_trace_reachable w c n e he)
  · exact fun hd n e he => key.2.2 hd e (mem_trace_reachable w c n e he)

/-- An instance of C2: the run of `dbDownWorld` without flags. -/
theorem startup_failure_is_fatal_witness :
    (∃ e ∈ (run dbDownWorld CommandLine.empty).store.trace,
      (e.isDatabaseCall || e.isEtcdConnect) = true ∧ dbDownWorld.err e ≠ none) ∧
    (∃ N, ∀ n, N ≤ n → (exec dbDownWorld n (init CommandLine.empty)).status = .exited 1) ∧
    (∀ n, ∀ e ∈ (exec dbDownWorld n (init CommandLine.empty)).store.trace,
      e.isConstruction = false ∧ e.isTaskStart = false) ∧
    ((∃ e ∈ (run dbDownWorld CommandLine.empty).store.trace,
        e.isDatabaseCall = true ∧ dbDownWorld.err e ≠ none) →
      ∀ n, ∀ e ∈ (exec dbDownWorld n (init CommandLine.empty)).store.trace,
        e.isEtcdConnect = false) :=
  ⟨⟨.sqlOpen "sqlite3" "db", by decide, by decide, by decide⟩,
   startup_failure_is_fatal dbDownWorld CommandLine.empty
    ⟨.sqlOpen "sqlite3" "db", by decide, by decide, by decide⟩⟩

/-! ## The epoch period -/

/-- C3 (counterexample): the flag value 9223372037 is accepted by `flag.Parse`,
and the duration `main` passes to `StartSigning` is not 9223372037 seconds: the
`int64` product wraps to a negative duration. -/
theorem epochPeriod_wraps :
    (flagParse longPeriod).map Flags.epochDuration = some 9223372037 ∧
    (flagParse longPeriod).map epochPeriod = some (-9223372036709551616) ∧
    (-9223372036709551616 : Int) ≠ 9223372037 * 10 ^ 9 ∧
    (run okWorld longPeriod).store.trace.filterMap
        (fun e => match e with
          | .goStartSigning _ d => some d
          | _ => none) = [-9223372036709551616] := by
  refine ⟨?_, ?_, ?_, ?_⟩ <;> decide

theorem wrapInt64_of_range (z : Int) (h1 : -2 ^ 63 ≤ z) (h2 : z < 2 ^ 63) : wrapInt64 z = z := by
  unfold wrapInt64
  omega

/-- C3 (amended): for every value p of the `period` flag with p * 10^9 below
2^63 (p at most 9223372036), the duration of every `StartSigning` that `main`
starts is exactly p * 10^9 nanoseconds; without the flag p is 60. -/
theorem epochPeriod_seconds (w : World) (c : CommandLine) (f : Flags)
    (hf : flagParse c = some f) (hp : f.epochDuration ≤ 9223372036) :
    f.epochDuration = c.period.getD 60 ∧
    epochPeriod f = (f.epochDuration : Int) * 10 ^ 9 ∧
    ∀ n s d, Event.goStartSigning s d ∈ (exec w n (init c)).store.trace →
      d = (f.epochDuration : Int) * 10 ^ 9 := by
  have hper : epochPeriod f = (f.epochDuration : Int) * 10 ^ 9 := by
    unfold epochPeriod mulInt64 durationOfUint timeSecond uintBits
    rw [wrapInt64_of_range ((f.epochDuration : Int) % 2 ^ 64) (by omega) (by omega)]
    rw [Int.emod_eq_of_lt (by omega) (by omega)]
    rw [wrapInt64_of_range _ (by omega) (by omega)]
    norm_num
  refine ⟨?_, hper, ?_⟩
  · unfold flagParse at hf
    simp only at hf
    split at hf
    · simp only [Option.some.injEq] at hf
      rw [← hf]
    · exact absurd hf (by simp)
  · intro n s d hmem
    have hrun := mem_trace_reachable w c n _ hmem
    rcases run_cases w c with hf0 | ⟨g, hg, h1 | ⟨h1, h2 | ⟨h2, h3 | ⟨h3, h4 | ⟨pem, h4, h5 | h5⟩⟩⟩⟩⟩
    · rw [hf] at hf0; exact absurd hf0 (by simp)
    all_goals
      rw [hf] at hg
      simp only [Option.some.injEq] at hg
      subst hg
    · obtain ⟨e, h1⟩ := h1
      rw [(run_sqlOpen_error w c f e hf h1).1] at hrun
      simp [traceDB] at hrun
    · obtain ⟨e, h2⟩ := h2
      rw [(run_dbPing_error w c f e hf h1 h2).1] at hrun
      simp [traceDB] at hrun
    · obtain ⟨e, h3⟩ := h3
      rw [(run_etcd_error w c f e hf h1 h2 h3).1] at hrun
      simp [traceDB] at hrun
    · obtain ⟨e, h4⟩ := h4
      rw [(run_readFile_error w c f e hf h1 h2 h3 h4).1] at hrun
      simp [traceComponents, traceDB] at hrun
    · obtain ⟨e, h5⟩ := h5
      rw [(run_signer_error w c f pem e hf h1 h2 h3 h4 h5).1] at hrun
      simp [traceComponents, traceDB] at hrun
    · rw [(run_started w c f pem hf h1 h2 h3 h4 h5).1] at hrun
      simp [traceStarted, traceComponents, traceDB] at hrun
      rw [hrun.2, hper]

/-- An instance of C3 (amended): without flags the period is 60 seconds. -/
theorem epochPeriod_seconds_witness :
    flagParse CommandLine.empty = some defaultFlags ∧ defaultFlags.epochDuration ≤ 9223372036 ∧
    epochPeriod defaultFlags = 60 * 10 ^ 9 :=
  ⟨rfl, by decide,
   (epochPeriod_seconds okWorld CommandLine.empty defaultFlags rfl (by decide)).2.1⟩

/-! ## Successful startup -/

theorem okWorld_startsUp : okWorld.startsUp defaultFlags [] := by
  decide

/-- C4: on every successful startup the tasks `main` starts are exactly
`StartSequencing` and `StartSigning`, once each and in this order, both on the
signer that `signer.New` built from the one queue, the one tree, the one mutator
and the one appender constructed in the run; the tree and the appender are built
on the same database handle.  No state of the run has started anything else. -/
theorem two_tasks_one_signer (w : World) (c : CommandLine) (f : Flags) (pem : List UInt8)
    (hf : flagParse c = some f) (hw : w.startsUp f pem) :
    (run w c).status = .running ∧
    (run w c).store.trace.filter Event.isTaskStart =
      [.goStartSequencing (signerOf f (.signatureSigner (keyAfterPEM w pem))),
       .goStartSigning (signerOf f (.signatureSigner (keyAfterPEM w pem))) (epochPeriod f)] ∧
    (run w c).store.trace.filter Event.isConstruction =
      [.queueNew (etcdCliOf f) f.mapID, .sqlhistNew (sqldbOf f) f.mapID, .entryNew,
       .appenderNew (sqldbOf f) f.mapID f.mapLogURL,
       .signerNew (.queue (etcdCliOf f) f.mapID) (.tree (sqldbOf f) f.mapID) .entryMutator
          (.appender (sqldbOf f) f.mapID f.mapLogURL)
          (.signatureSigner (keyAfterPEM w pem))] ∧
    signerOf f (.signatureSigner (keyAfterPEM w pem)) =
      .signer (.queue (etcdCliOf f) f.mapID) (.tree (sqldbOf f) f.mapID) .entryMutator
        (.appender (sqldbOf f) f.mapID f.mapLogURL) (.signatureSigner (keyAfterPEM w pem)) ∧
    ∀ n, ∀ e ∈ (exec w n (init c)).store.trace, e.isTaskStart = true →
      e = .goStartSequencing (signerOf f (.signatureSigner (keyAfterPEM w pem))) ∨
      e = .goStartSigning (signerOf f (.signatureSigner (keyAfterPEM w pem))) (epochPeriod f) := by
  obtain ⟨h1, h2, h3, h4, h5⟩ := hw
  obtain ⟨hs, ht, -⟩ := run_started w c f pem hf h1 h2 h3 h4 h5
  have hfilter : (run w c).store.trace.filter Event.isTaskStart =
      [.goStartSequencing (signerOf f (.signatureSigner (keyAfterPEM w pem))),
       .goStartSigning (signerOf f (.signatureSigner (keyAfterPEM w pem))) (epochPeriod f)] := by
    rw [hs]
    simp [traceStarted, traceComponents, traceDB, Event.isTaskStart]
  refine ⟨ht, hfilter, ?_, rfl, ?_⟩
  · rw [hs]
    simp [traceStarted, traceComponents, traceDB, Event.isConstruction, queueOf, treeOf,
      appenderOf]
  · intro n e he hstart
    have hmem : e ∈ (run w c).store.trace.filter Event.isTaskStart :=
      List.mem_filter.mpr ⟨mem_trace_reachable w c n e he, hstart⟩
    rw [hfilter] at hmem
    simpa using hmem

/-- An instance of C4: the run of `okWorld` without flags. -/
theorem two_tasks_one_signer_witness :
    flagParse CommandLine.empty = some defaultFlags ∧ okWorld.startsUp defaultFlags [] ∧
    (run okWorld CommandLine.empty).store.trace.filter Event.isTaskStart =
      [.goStartSequencing (signerOf defaultFlags (.signatureSigner (.privateKey []))),
       .goStartSigning (signerOf defaultFlags (.signatureSigner (.privateKey [])))
          60000000000] :=
  ⟨rfl, okWorld_startsUp,
   (two_tasks_one_signer okWorld CommandLine.empty defaultFlags [] rfl okWorld_startsUp).2.1⟩

/-! ## The map identifier -/

/-- Every effect of a run is a fatal message, or one of the effects of the
successful startup on the same flags. -/
theorem mem_run_trace (w : World) (c : CommandLine) (e : Event)
    (h : e ∈ (run w c).store.trace) :
    e.isFatal = true ∨ e = .logSetFlags 19 ∨ e = .flagParse ∨
      ∃ f, flagParse c = some f ∧ e ∈ traceStarted w f (pemOf w f) := by
  rcases run_cases w c with hf | ⟨f, hf, h1 | ⟨h1, h2 | ⟨h2, h3 | ⟨h3, h4 | ⟨pem, h4, h5 | h5⟩⟩⟩⟩⟩
  · rw [(run_flag_error w c hf).1] at h
    simp at h
    tauto
  · obtain ⟨e1, h1⟩ := h1
    rw [(run_sqlOpen_error w c f e1 hf h1).1] at h
    simp [traceDB] at h
    rcases h with h | h | h | h <;> simp [h, Event.isFatal, hf, traceStarted, traceComponents, traceDB]
  · obtain ⟨e1, h2⟩ := h2
    rw [(run_dbPing_error w c f e1 hf h1 h2).1] at h
    simp [traceDB] at h
    rcases h with h | h | h | h | h <;>
      simp [h, Event.isFatal, hf, traceStarted, traceComponents, traceDB]
  · obtain ⟨e1, h3⟩ := h3
    rw [(run_etcd_error w c f e1 hf h1 h2 h3).1] at h
    simp [traceDB] at h
    rcases h with h | h | h | h | h | h <;>
      simp [h, Event.isFatal, hf, traceStarted, traceComponents, traceDB]
  · obtain ⟨e1, h4⟩ := h4
    rw [(run_readFile_error w c f e1 hf h1 h2 h3 h4).1] at h
    simp only [List.mem_append, List.mem_singleton] at h
    rcases h with h | h
    · exact Or.inr (Or.inr (Or.inr ⟨f, hf, by
        simp only [traceStarted, List.mem_append]; exact Or.inl h⟩))
    · simp [h, Event.isFatal]
  · obtain ⟨e1, h5⟩ := h5
    have hp : pemOf w f = pem := by simp [pemOf, h4]
    rw [(run_signer_error w c f pem e1 hf h1 h2 h3 h4 h5).1] at h
    simp only [List.mem_append, List.mem_cons, List.mem_singleton, List.not_mem_nil,
      or_false] at h
    rcases h with h | h | h | h
    · exact Or.inr (Or.inr (Or.inr ⟨f, hf, by
        simp only [traceStarted, List.mem_append]; exact Or.inl h⟩))
    · exact Or.inr (Or.inr (Or.inr ⟨f, hf, by simp [traceStarted, hp, h]⟩))
    · exact Or.inr (Or.inr (Or.inr ⟨f, hf, by simp [traceStarted, hp, h]⟩))
    · simp [h, Event.isFatal]
  · have hp : pemOf w f = pem := by simp [pemOf, h4]
    rw [(run_started w c f pem hf h1 h2 h3 h4 h5).1] at h
    exact Or.inr (Or.inr (Or.inr ⟨f, hf, by rw [hp]; exact h⟩))

/-- C5: in every state of every run, each construction that is keyed by a map
identifier (queue, tree, appender) is keyed by the value of the `domain` flag,
which is "example.com" when the flag is not given; on a successful startup the
three constructions take place. -/
theorem one_map_identifier (w : World) (c : CommandLine) (n : Nat) (e : Event) (d : String)
    (he : e ∈ (exec w n (init c)).store.trace) (hd : e.mapID? = some d) :
    d = c.domain.getD "example.com" ∧
    (∀ f pem, flagParse c = some f → w.startsUp f pem →
      (run w c).store.trace.filterMap Event.mapID? = [d, d, d]) := by
  have hrun := mem_trace_reachable w c n e he
  have hmap : ∀ f, flagParse c = some f → f.mapID = c.domain.getD "example.com" := by
    intro f hf
    unfold flagParse at hf
    simp only at hf
    split at hf
    · simp only [Option.some.injEq] at hf
      rw [← hf]
    · exact absurd hf (by simp)
  have hd' : d = c.domain.getD "example.com" := by
    rcases mem_run_trace w c e hrun with h | h | h | ⟨f, hf, h⟩
    · cases e <;> simp [Event.isFatal, Event.mapID?] at h hd
    · simp [h, Event.mapID?] at hd
    · simp [h, Event.mapID?] at hd
    · rw [← hmap f hf]
      simp only [traceStarted, traceComponents, traceDB, List.mem_append, List.mem_cons,
        List.mem_singleton, List.not_mem_nil, or_false] at h
      rcases h with ((h | h | h) | h | h | h | h | h | h | h) | h | h | h | h | h | h <;>
        simp [h, Event.mapID?] at hd <;> exact hd.symm
  refine ⟨hd', ?_⟩
  intro f pem hf ⟨h1, h2, h3, h4, h5⟩
  rw [(run_started w c f pem hf h1 h2 h3 h4 h5).1, hd', ← hmap f hf]
  simp [traceStarted, traceComponents, traceDB, Event.mapID?]

/-- An instance of C5: the queue of the run of `okWorld` without flags. -/
theorem one_map_identifier_witness :
    Event.queueNew (.etcdClient [""]) "example.com" ∈
      (exec okWorld 8 (init CommandLine.empty)).store.trace ∧
    "example.com" = CommandLine.empty.domain.getD "example.com" :=
  ⟨by decide,
   (one_map_identifier okWorld CommandLine.empty 8 (.queueNew (.etcdClient [""]) "example.com")
      "example.com" (by decide) rfl).1⟩

/-! ## The signing key -/

/-- C6 (counterexample): in the run of `pingDownWorld` on `deployed` the flags
parse, `db.Ping` fails, the process exits in `openDB`, and `openPrivateKey` is
not invoked at all. -/
theorem openPrivateKey_not_invoked :
    flagParse deployed = some deployedFlags ∧
    (run pingDownWorld deployed).store.trace.getLast? =
      some (.logFatal "db.Ping(): unable to open database file") ∧
    (run pingDownWorld deployed).status = .exited 1 ∧
    (run pingDownWorld deployed).store.trace.countP Event.isKeyLoad = 0 := by
  refine ⟨?_, ?_, ?_, ?_⟩ <;> decide

theorem run_keyLoad_count (w : World) (c : CommandLine) :
    (run w c).store.trace.countP Event.isKeyLoad ≤ 1 ∧
    (∀ f, flagParse c = some f → w.err (.sqlOpen "sqlite3" f.serverDBPath) = none →
      w.err (.dbPing (sqldbOf f)) = none →
      w.err (.clientv3New (etcdEndpointList f) dialTimeout) = none →
      (run w c).store.trace.countP Event.isKeyLoad = 1) ∧
    ((flagParse c = none ∨ ∃ e ∈ (run w c).store.trace,
        (e.isDatabaseCall || e.isEtcdConnect) = true ∧ w.err e ≠ none) →
      (run w c).store.trace.countP Event.isKeyLoad = 0) := by
  rcases run_cases w c with hf | ⟨f, hf, h1 | ⟨h1, h2 | ⟨h2, h3 | ⟨h3, h4 | ⟨pem, h4, h5 | h5⟩⟩⟩⟩⟩
  · rw [(run_flag_error w c hf).1]
    simp [List.countP_cons, Event.isKeyLoad, hf]
  · obtain ⟨e1, h1⟩ := h1
    rw [(run_sqlOpen_error w c f e1 hf h1).1]
    simp [List.countP_cons, Event.isKeyLoad, hf, traceDB, h1]
  · obtain ⟨e1, h2⟩ := h2
    rw [(run_dbPing_error w c f e1 hf h1 h2).1]
    simp [List.countP_cons, Event.isKeyLoad, hf, traceDB, h1, h2]
  · obtain ⟨e1, h3⟩ := h3
    rw [(run_etcd_error w c f e1 hf h1 h2 h3).1]
    simp [List.countP_cons, Event.isKeyLoad, hf, traceDB, h1, h2, h3]
  · obtain ⟨e1, h4⟩ := h4
    rw [(run_readFile_error w c f e1 hf h1 h2 h3 h4).1]
    simp [List.countP_cons, Event.isKeyLoad, hf, traceDB, traceComponents,
      Event.isDatabaseCall, Event.isEtcdConnect, h1, h2, h3]
  · obtain ⟨e1, h5⟩ := h5
    rw [(run_signer_error w c f pem e1 hf h1 h2 h3 h4 h5).1]
    simp [List.countP_cons, Event.isKeyLoad, hf, traceDB, traceComponents,
      Event.isDatabaseCall, Event.isEtcdConnect, h1, h2, h3]
  · rw [(run_started w c f pem hf h1 h2 h3 h4 h5).1]
    simp [List.countP_cons, Event.isKeyLoad, hf, traceDB, traceComponents, traceStarted,
      Event.isDatabaseCall, Event.isEtcdConnect, h1, h2, h3]

/-- In a state in which a task has been started, `NewSignatureSigner` has
returned without error. -/
theorem key_before_tasks (w : World) (c : CommandLine) (n : Nat) (e : Event)
    (he : e ∈ (exec w n (init c)).store.trace) (hs : e.isTaskStart = true) :
    ∃ key, Event.newSignatureSigner key ∈ (exec w n (init c)).store.trace ∧
      w.err (.newSignatureSigner key) = none := by
  obtain ⟨t, ht⟩ := trace_reachable w c n
  have hrun := mem_trace_reachable w c n e he
  rcases run_cases w c with hf | ⟨f, hf, h1 | ⟨h1, h2 | ⟨h2, h3 | ⟨h3, h4 | ⟨pem, h4, h5 | h5⟩⟩⟩⟩⟩
  · rw [(run_flag_error w c hf).1] at hrun
    simp at hrun
    rcases hrun with h | h <;> simp [h, Event.isTaskStart] at hs
  · obtain ⟨e1, h1⟩ := h1
    rw [(run_sqlOpen_error w c f e1 hf h1).1] at hrun
    simp [traceDB] at hrun
    rcases hrun with h | h | h | h <;> simp [h, Event.isTaskStart] at hs
  · obtain ⟨e1, h2⟩ := h2
    rw [(run_dbPing_error w c f e1 hf h1 h2).1] at hrun
    simp [traceDB] at hrun
    rcases hrun with h | h | h | h | h <;> simp [h, Event.isTaskStart] at hs
  · obtain ⟨e1, h3⟩ := h3
    rw [(run_etcd_error w c f e1 hf h1 h2 h3).1] at hrun
    simp [traceDB] at hrun
    rcases hrun with h | h | h | h | h | h <;> simp [h, Event.isTaskStart] at hs
  · obtain ⟨e1, h4⟩ := h4
    rw [(run_readFile_error w c f e1 hf h1 h2 h3 h4).1] at hrun
    simp [traceDB, traceComponents] at hrun
    rcases hrun with h | h | h | h | h | h | h | h | h | h | h <;>
      simp [h, Event.isTaskStart] at hs
  · obtain ⟨e1, h5⟩ := h5
    rw [(run_signer_error w c f pem e1 hf h1 h2 h3 h4 h5).1] at hrun
    simp [traceDB, traceComponents] at hrun
    rcases hrun with h | h | h | h | h | h | h | h | h | h | h | h | h <;>
      simp [h, Event.isTaskStart] at hs
  · refine ⟨keyAfterPEM w pem, ?_, h5⟩
    rw [(run_started w c f pem hf h1 h2 h3 h4 h5).1] at ht
    have hsplit : traceStarted w f pem =
        (traceComponents f ++ [.privateKeyFromPEM pem, .newSignatureSigner (keyAfterPEM w pem)]) ++
        [.signerNew (queueOf f) (treeOf f) Obj.entryMutator (appenderOf f)
            (Obj.signatureSigner (keyAfterPEM w pem)),
         .goStartSequencing (signerOf f (Obj.signatureSigner (keyAfterPEM w pem))),
         .goStartSigning (signerOf f (Obj.signatureSigner (keyAfterPEM w pem))) (epochPeriod f),
         .logPrintf "Signer started."] := by
      simp [traceStarted]
    simp only [] at ht
    rw [hsplit] at ht
    rcases List.append_eq_append_iff.mp ht with ⟨a, ha, -⟩ | ⟨a, ha, -⟩
    · rw [ha]
      simp
    · have hmem : e ∈ traceComponents f ++
          [.privateKeyFromPEM pem, .newSignatureSigner (keyAfterPEM w pem)] := by
        rw [ha]; exact List.mem_append_left a he
      simp [traceDB, traceComponents] at hmem
      rcases hmem with h | h | h | h | h | h | h | h | h | h | h | h <;>
        simp [h, Event.isTaskStart] at hs

theorem keyAfterPEM_ne_signatureSigner (w : World) (pem : List UInt8) (key : Obj) :
    keyAfterPEM w pem ≠ Obj.signatureSigner key := by
  unfold keyAfterPEM
  split <;> simp

/-- C6 (amended): in every state of every run `openPrivateKey` has been invoked
at most once; in every run in which the flags parse and `openDB` and `openEtcd`
return it is invoked exactly once; in a run that exits in `flag.Parse`, `openDB`
or `openEtcd` it is invoked in no state; in a state in which a task has been
started, `NewSignatureSigner` has already returned without error; and the only
call that receives a signature signer as an argument is `signer.New`. -/
theorem key_loaded_once (w : World) (c : CommandLine) (n : Nat) :
    (exec w n (init c)).store.trace.countP Event.isKeyLoad ≤ 1 ∧
    (∀ f, flagParse c = some f → w.err (.sqlOpen "sqlite3" f.serverDBPath) = none →
      w.err (.dbPing (sqldbOf f)) = none →
      w.err (.clientv3New (etcdEndpointList f) dialTimeout) = none →
      (run w c).store.trace.countP Event.isKeyLoad = 1) ∧
    ((flagParse c = none ∨ ∃ e ∈ (run w c).store.trace,
        (e.isDatabaseCall || e.isEtcdConnect) = true ∧ w.err e ≠ none) →
      (exec w n (init c)).store.trace.countP Event.isKeyLoad = 0) ∧
    (∀ e ∈ (exec w n (init c)).store.trace, e.isTaskStart = true →
      ∃ key, Event.newSignatureSigner key ∈ (exec w n (init c)).store.trace ∧
        w.err (.newSignatureSigner key) = none) ∧
    (∀ e ∈ (exec w n (init c)).store.trace, ∀ key, Obj.signatureSigner key ∈ e.args →
      ∃ q t m a, e = .signerNew q t m a (.signatureSigner key)) := by
  obtain ⟨t, ht⟩ := trace_reachable w c n
  refine ⟨?_, (run_keyLoad_count w c).2.1, ?_,
    fun e he hs => key_before_tasks w c n e he hs, ?_⟩
  · have h := (run_keyLoad_count w c).1
    rw [ht, List.countP_append] at h
    omega
  · intro hexit
    have h := (run_keyLoad_count w c).2.2 hexit
    rw [ht, List.countP_append] at h
    omega
  · intro e he key hkey
    have hk := keyAfterPEM_ne_signatureSigner w
    rcases mem_run_trace w c e (mem_trace_reachable w c n e he) with h | h | h | ⟨f, -, h⟩
    · cases e <;> simp [Event.isFatal, Event.args] at h hkey
    · simp [h, Event.args] at hkey
    · simp [h, Event.args] at hkey
    · simp only [traceStarted, traceComponents, traceDB, List.mem_append, List.mem_cons,
        List.mem_singleton, List.not_mem_nil, or_false] at h
      rcases h with ((h | h | h) | h | h | h | h | h | h | h) | h | h | h | h | h | h <;>
        subst h <;>
        simp [Event.args, sqldbOf, etcdCliOf, queueOf, treeOf, appenderOf, signerOf,
          (hk _ _).symm] at hkey ⊢
      exact hkey.symm

/-- An instance of C6 (amended): the run of `startedWorld` on `deployed`, which
loads the key once, and the run of `pingDownWorld`, which exits in `openDB` and
loads it in no state. -/
theorem key_loaded_once_witness :
    flagParse deployed = some deployedFlags ∧
    (run startedWorld deployed).store.trace.countP Event.isKeyLoad = 1 ∧
    (∃ e ∈ (run pingDownWorld deployed).store.trace,
      (e.isDatabaseCall || e.isEtcdConnect) = true ∧ pingDownWorld.err e ≠ none) ∧
    (exec pingDownWorld 30 (init deployed)).store.trace.countP Event.isKeyLoad = 0 :=
  ⟨rfl,
   (key_loaded_once startedWorld deployed 0).2.1 deployedFlags rfl rfl rfl rfl,
   ⟨.dbPing (.sqlDB "sqlite3" "/var/lib/kt/db.sqlite"), by decide, by decide, by decide⟩,
   (key_loaded_once pingDownWorld deployed 30).2.2.1
      (Or.inr ⟨.dbPing (.sqlDB "sqlite3" "/var/lib/kt/db.sqlite"),
        by decide, by decide, by decide⟩)⟩

/-! ## The etcd endpoint list -/

theorem splitSeq_ne_nil {α : Type} [DecidableEq α] (sep : α) (s : List α) :
    splitSeq sep s ≠ [] := by
  induction s with
  | nil => simp [splitSeq]
  | cons c cs ih =>
    simp only [splitSeq]
    split
    · simp
    · split <;> simp

theorem joinSeq_cons_cons {α : Type} (sep c : α) (x : List α) (xs : List (List α)) :
    joinSeq sep ((c :: x) :: xs) = c :: joinSeq sep (x :: xs) := by
  cases xs <;> simp [joinSeq]

theorem joinSeq_splitSeq {α : Type} [DecidableEq α] (sep : α) (s : List α) :
    joinSeq sep (splitSeq sep s) = s := by
  induction s with
  | nil => simp [splitSeq, joinSeq]
  | cons c cs ih =>
    simp only [splitSeq]
    split
    · rename_i h
      cases hs : splitSeq sep cs with
      | nil => exact absurd hs (splitSeq_ne_nil sep cs)
      | cons y ys =>
        rw [hs] at ih
        simp [joinSeq, ih, h]
    · cases hs : splitSeq sep cs with
      | nil => exact absurd hs (splitSeq_ne_nil sep cs)
      | cons y ys =>
        rw [hs] at ih
        simp only [joinSeq_cons_cons, ih]

theorem splitSeq_free {α : Type} [DecidableEq α] (sep : α) (s : List α) :
    ∀ x ∈ splitSeq sep s, sep ∉ x := by
  induction s with
  | nil => simp [splitSeq]
  | cons c cs ih =>
    simp only [splitSeq]
    split
    · intro x hx
      rcases List.mem_cons.mp hx with rfl | hx
      · simp
      · exact ih x hx
    · rename_i hc
      cases hs : splitSeq sep cs with
      | nil => exact absurd hs (splitSeq_ne_nil sep cs)
      | cons y ys =>
        rw [hs] at ih
        intro x hx
        rcases List.mem_cons.mp hx with rfl | hx
        · have := ih y (List.mem_cons_self _ _)
          simp only [List.mem_cons, not_or]
          exact ⟨fun h => hc h.symm, this⟩
        · exact ih x (List.mem_cons_of_mem _ hx)

theorem splitSeq_of_free {α : Type} [DecidableEq α] (sep : α) (x : List α) (h : sep ∉ x) :
    splitSeq sep x = [x] := by
  induction x with
  | nil => simp [splitSeq]
  | cons c cs ih =>
    simp only [List.mem_cons, not_or] at h
    have hc : ¬ c = sep := fun hc => h.1 hc.symm
    simp [splitSeq, ih h.2, hc]

theorem splitSeq_append_sep {α : Type} [DecidableEq α] (sep : α) (x r : List α) (h : sep ∉ x) :
    splitSeq sep (x ++ sep :: r) = x :: splitSeq sep r := by
  induction x with
  | nil => simp [splitSeq]
  | cons c cs ih =>
    simp only [List.mem_cons, not_or] at h
    have hc : ¬ c = sep := fun hc => h.1 hc.symm
    simp [splitSeq, ih h.2, hc]

/-- The fields are determined by the two properties: a non-empty list of
separator-free fields is the split of its join. -/
theorem splitSeq_joinSeq {α : Type} [DecidableEq α] (sep : α) (l : List (List α))
    (hne : l ≠ []) (hfree : ∀ x ∈ l, sep ∉ x) : splitSeq sep (joinSeq sep l) = l := by
  induction l with
  | nil => exact absurd rfl hne
  | cons x xs ih =>
    cases xs with
    | nil => simpa [joinSeq] using splitSeq_of_free sep x (hfree x (List.mem_cons_self _ _))
    | cons y ys =>
      simp only [joinSeq]
      rw [splitSeq_append_sep sep x _ (hfree x (List.mem_cons_self _ _)),
        ih (by simp) (fun z hz => hfree z (List.mem_cons_of_mem _ hz))]

/-- C9: the endpoint list that any run gives to `clientv3.New` is the split of
the value s of the `etcd` flag at its commas: joined with "," it is s again, no
endpoint contains a comma, it is the only non-empty list of comma-free strings
with this join, it is never empty, and for s = "" (the default) it is the list
of one empty string. -/
theorem etcd_endpoints_split (w : World) (c : CommandLine) (n : Nat) (eps : List String)
    (t : Int) (h : Event.clientv3New eps t ∈ (exec w n (init c)).store.trace) :
    eps = Split (c.etcd.getD "") ',' ∧
    Join eps ',' = c.etcd.getD "" ∧
    (∀ x ∈ eps, ',' ∉ x.data) ∧
    (∀ l : List String, l ≠ [] → (∀ x ∈ l, ',' ∉ x.data) → Join l ',' = c.etcd.getD "" →
      l = eps) ∧
    eps ≠ [] ∧
    (c.etcd.getD "" = "" → eps = [""]) := by
  have heps : eps = Split (c.etcd.getD "") ',' := by
    rcases mem_run_trace w c _ (mem_trace_reachable w c n _ h) with h | h | h | ⟨f, hf, h⟩
    · simp [Event.isFatal] at h
    · simp at h
    · simp at h
    · have hetcd : f.etcdEndpoints = c.etcd.getD "" := by
        unfold flagParse at hf
        simp only at hf
        split at hf
        · simp only [Option.some.injEq] at hf
          rw [← hf]
        · exact absurd hf (by simp)
      simp [traceStarted, traceComponents, traceDB, etcdEndpointList, hetcd] at h
      exact h.1
  subst heps
  refine ⟨rfl, ?_, ?_, ?_, ?_, ?_⟩
  · simp [Join, Split, List.map_map, Function.comp_def, joinSeq_splitSeq]
  · intro x hx
    simp only [Split, List.mem_map] at hx
    obtain ⟨y, hy, rfl⟩ := hx
    exact splitSeq_free ',' _ y hy
  · intro l hne hfree hjoin
    have h1 : splitSeq ',' (joinSeq ',' (l.map String.data)) = l.map String.data :=
      splitSeq_joinSeq ',' _ (by simpa using hne) (by
        intro x hx
        simp only [List.mem_map] at hx
        obtain ⟨y, hy, rfl⟩ := hx
        exact hfree y hy)
    have h2 : (c.etcd.getD "").data = joinSeq ',' (l.map String.data) := by
      rw [← hjoin, Join]
    simp only [Split, h2, h1, List.map_map]
    have hid : (String.mk ∘ String.data) = id := funext fun _ => rfl
    rw [hid, List.map_id]
  · simp [Split, splitSeq_ne_nil]
  · intro hs
    rw [hs]
    rfl

/-- An instance of C9: the run of `okWorld` with `-etcd a:2379,b:2379`. -/
theorem etcd_endpoints_split_witness :
    Event.clientv3New ["a:2379", "b:2379"] 5000000000 ∈
      (exec okWorld 6 (init ⟨none, some "a:2379,b:2379", none, none, none, none⟩)).store.trace ∧
    Join ["a:2379", "b:2379"] ',' = "a:2379,b:2379" :=
  ⟨by decide,
   (etcd_endpoints_split okWorld ⟨none, some "a:2379,b:2379", none, none, none, none⟩ 6
      ["a:2379", "b:2379"] 5000000000 (by decide)).2.1⟩

/-! ## The wait group -/

/-- C10 (counterexample): in the successful run of `startedWorld` on `deployed`,
"Signer started." is logged by the 18th statement.  In the state it reaches
`main` is running and not in `wg.Wait()`; in the next state, reached by
`var wg sync.WaitGroup`, the message is in the trace, the wait-group counter is
0 and not 1, and `main` is not in `wg.Wait()`: `wg.Add(1)` is still to come. -/
theorem wait_group_zero_after_log :
    flagParse deployed = some deployedFlags ∧
    Event.logPrintf "Signer started." ∉ (exec startedWorld 17 (init deployed)).store.trace ∧
    Event.logPrintf "Signer started." ∈ (exec startedWorld 18 (init deployed)).store.trace ∧
    (exec startedWorld 18 (init deployed)).status = .running ∧
    (exec startedWorld 18 (init deployed)).blockedInWait = false ∧
    Event.logPrintf "Signer started." ∈ (exec startedWorld 19 (init deployed)).store.trace ∧
    (exec startedWorld 19 (init deployed)).status = .running ∧
    (exec startedWorld 19 (init deployed)).store.wg = 0 ∧
    (exec startedWorld 19 (init deployed)).blockedInWait = false := by
  refine ⟨?_, ?_, ?_, ?_, ?_, ?_, ?_, ?_, ?_⟩ <;> decide

/-- A state that is not running is the rest state of the run. -/
theorem run_eq_of_not_running (w : World) (c : CommandLine) (n : Nat)
    (h : (exec w n (init c)).status ≠ .running) : run w c = exec w n (init c) := by
  obtain ⟨N, hN⟩ := exec_run w c
  rw [← hN (n + N) (Nat.le_add_left N n), exec_add]
  exact exec_fixed w _ (step_not_running w _ h) N

/-- A run rests blocked in `wg.Wait()` or after `os.Exit`; it never rests
returned, and it has run no deferred `Close`. -/
theorem run_rest (w : World) (c : CommandLine) :
    (run w c).status ≠ .returned ∧ (∀ o, Event.close o ∉ (run w c).store.trace) ∧
    (Event.logPrintf "Signer started." ∈ (run w c).store.trace →
      ∃ f pem, flagParse c = some f ∧ w.startsUp f pem) := by
  rcases run_cases w c with hf | ⟨f, hf, h1 | ⟨h1, h2 | ⟨h2, h3 | ⟨h3, h4 | ⟨pem, h4, h5 | h5⟩⟩⟩⟩⟩
  · obtain ⟨hs, ht⟩ := run_flag_error w c hf
    rw [hs, ht]; simp
  · obtain ⟨e1, h1⟩ := h1
    obtain ⟨hs, ht⟩ := run_sqlOpen_error w c f e1 hf h1
    rw [hs, ht]; simp [traceDB]
  · obtain ⟨e1, h2⟩ := h2
    obtain ⟨hs, ht⟩ := run_dbPing_error w c f e1 hf h1 h2
    rw [hs, ht]; simp [traceDB]
  · obtain ⟨e1, h3⟩ := h3
    obtain ⟨hs, ht⟩ := run_etcd_error w c f e1 hf h1 h2 h3
    rw [hs, ht]; simp [traceDB]
  · obtain ⟨e1, h4⟩ := h4
    obtain ⟨hs, ht⟩ := run_readFile_error w c f e1 hf h1 h2 h3 h4
    rw [hs, ht]; simp [traceDB, traceComponents]
  · obtain ⟨e1, h5⟩ := h5
    obtain ⟨hs, ht⟩ := run_signer_error w c f pem e1 hf h1 h2 h3 h4 h5
    rw [hs, ht]; simp [traceDB, traceComponents]
  · obtain ⟨hs, ht, -⟩ := run_started w c f pem hf h1 h2 h3 h4 h5
    rw [hs, ht]
    refine ⟨by simp, by simp [traceDB, traceComponents, traceStarted], fun _ => ?_⟩
    exact ⟨f, pem, hf, h1, h2, h3, h4, h5⟩

/-- On a successful startup the machine is at rest after 20 statements, and
the message "Signer started." is logged by the 18th. -/
theorem exec_started (w : World) (c : CommandLine) (f : Flags) (pem : List UInt8)
    (hf : flagParse c = some f) (hw : w.startsUp f pem) :
    exec w 20 (init c) = run w c ∧
    Event.logPrintf "Signer started." ∉ (exec w 17 (init c)).store.trace := by
  obtain ⟨h1, h2, h3, h4, h5⟩ := hw
  simp only [sqldbOf] at h2
  simp only [keyAfterPEM] at h5
  constructor
  · simp [exec, step, init, run, main, eval, hf, h1, h2, h3, h4, h5, mainBody, openDB,
      openEtcd, openPrivateKey]
  · simp [exec, step, init, main, hf, h1, h2, h3, h4, h5, mainBody, openDB,
      openEtcd, openPrivateKey]

/-- On a successful startup the 18th statement logs "Signer started." and
leaves `main` outside `wg.Wait()`; the 19th declares `wg`, with counter 0. -/
theorem exec_started_window (w : World) (c : CommandLine) (f : Flags) (pem : List UInt8)
    (hf : flagParse c = some f) (hw : w.startsUp f pem) :
    Event.logPrintf "Signer started." ∈ (exec w 18 (init c)).store.trace ∧
    (exec w 18 (init c)).status = .running ∧
    (exec w 18 (init c)).blockedInWait = false ∧
    (exec w 19 (init c)).status = .running ∧
    (exec w 19 (init c)).store.wg = 0 ∧
    (exec w 19 (init c)).blockedInWait = false := by
  obtain ⟨h1, h2, h3, h4, h5⟩ := hw
  simp only [sqldbOf] at h2
  simp only [keyAfterPEM] at h5
  refine ⟨?_, ?_, ?_, ?_, ?_, ?_⟩ <;>
    simp [exec, step, init, main, hf, h1, h2, h3, h4, h5, mainBody, openDB,
      openEtcd, openPrivateKey, State.blockedInWait]

/-- C10 (amended): in no state of any run has `main` returned or a deferred
`Close` been executed.  The state reached by the statement that logs "Signer
started." is running and not in `wg.Wait()`; the next state, after the
declaration of `wg`, is running with a wait-group counter of 0 and not in
`wg.Wait()`; and every state from the second statement after the log on (after
`wg.Add(1)`) is running with a wait-group counter of 1, blocked in `wg.Wait()`,
with both `Close` calls still deferred, and has no transition to another state. -/
theorem main_blocks_forever (w : World) (c : CommandLine) (n : Nat) :
    (exec w n (init c)).status ≠ .returned ∧
    (∀ o, Event.close o ∉ (exec w n (init c)).store.trace) ∧
    (Event.logPrintf "Signer started." ∉ (exec w n (init c)).store.trace →
      Event.logPrintf "Signer started." ∈ (exec w (n + 1) (init c)).store.trace →
        (exec w (n + 1) (init c)).status = .running ∧
        (exec w (n + 1) (init c)).blockedInWait = false ∧
        (exec w (n + 2) (init c)).status = .running ∧
        (exec w (n + 2) (init c)).store.wg = 0 ∧
        (exec w (n + 2) (init c)).blockedInWait = false) ∧
    (Event.logPrintf "Signer started." ∈ (exec w n (init c)).store.trace →
      ∀ m, n + 2 ≤ m →
        (exec w m (init c)).status = .running ∧
        (exec w m (init c)).store.wg = 1 ∧
        (exec w m (init c)).blockedInWait = true ∧
        (exec w m (init c)).store.deferred.length = 2 ∧
        step w (exec w m (init c)) = exec w m (init c)) := by
  have hfirst : ∀ k, Event.logPrintf "Signer started." ∈ (exec w k (init c)).store.trace →
      ∃ f pem, flagParse c = some f ∧ w.startsUp f pem ∧ 18 ≤ k := by
    intro k hlog
    obtain ⟨f, pem, hf, hw⟩ := (run_rest w c).2.2 (mem_trace_reachable w c k _ hlog)
    refine ⟨f, pem, hf, hw, ?_⟩
    by_contra hlt
    obtain ⟨j, hj⟩ := Nat.exists_eq_add_of_le (show k ≤ 17 by omega)
    obtain ⟨t, ht⟩ := exec_trace w j (exec w k (init c))
    rw [← exec_add, ← hj] at ht
    exact (exec_started w c f pem hf hw).2 (by rw [ht]; exact List.mem_append_left t hlog)
  refine ⟨?_, ?_, ?_, ?_⟩
  · intro hret
    have hnr : (exec w n (init c)).status ≠ .running := by rw [hret]; simp
    have := run_eq_of_not_running w c n hnr
    exact (run_rest w c).1 (by rw [this]; exact hret)
  · intro o ho
    exact (run_rest w c).2.1 o (mem_trace_reachable w c n _ ho)
  · intro hnot hlog
    obtain ⟨f, pem, hf, hw, hk⟩ := hfirst (n + 1) hlog
    obtain ⟨h18, hwin⟩ := exec_started_window w c f pem hf hw
    have hn : n = 17 := by
      by_contra hne
      obtain ⟨j, hj⟩ := Nat.exists_eq_add_of_le (show 18 ≤ n by omega)
      obtain ⟨t, ht⟩ := exec_trace w j (exec w 18 (init c))
      rw [← exec_add, ← hj] at ht
      exact hnot (by rw [ht]; exact List.mem_append_left t h18)
    subst hn
    exact hwin
  · intro hlog m hm
    obtain ⟨f, pem, hf, hw, hn⟩ := hfirst n hlog
    obtain ⟨h20, -⟩ := exec_started w c f pem hf hw
    obtain ⟨k, hk⟩ := Nat.exists_eq_add_of_le (show 20 ≤ m by omega)
    have hm' : exec w m (init c) = run w c := by
      rw [hk, exec_add, h20]
      exact exec_fixed w _ (step_eval w _ _) k
    obtain ⟨h1, h2, h3, h4, h5⟩ := hw
    obtain ⟨hs, ht, hb⟩ := run_started w c f pem hf h1 h2 h3 h4 h5
    rw [hm']
    refine ⟨ht, by rw [hs], hb, by rw [hs]; rfl, step_eval w _ _⟩

/-- An instance of C10 (amended): the run of `startedWorld` on `deployed`: the
counter after the declaration of `wg`, and the state from the 20th statement on. -/
theorem main_blocks_forever_witness :
    Event.logPrintf "Signer started." ∉ (exec startedWorld 17 (init deployed)).store.trace ∧
    Event.logPrintf "Signer started." ∈ (exec startedWorld 18 (init deployed)).store.trace ∧
    (exec startedWorld 19 (init deployed)).store.wg = 0 ∧
    (exec startedWorld 20 (init deployed)).store.wg = 1 ∧
    (exec startedWorld 20 (init deployed)).blockedInWait = true :=
  ⟨by decide, by decide,
   ((main_blocks_forever startedWorld deployed 17).2.2.1 (by decide) (by decide)).2.2.2.1,
   ((main_blocks_forever startedWorld deployed 18).2.2.2 (by decide) 20 (by decide)).2.1,
   ((main_blocks_forever startedWorld deployed 18).2.2.2 (by decide) 20 (by decide)).2.2.1⟩

end Backend

namespace DB

/-! ## Append-only writes -/

/-- C7: in every storage state, a `WriteUpdate` of an entry whose primary key
already has a row returns an error and leaves the storage, and so the stored
row, unchanged; and so does a `WriteEpochInfo` on a primary key that already has
a row. -/
theorem writes_are_append_only (s : Storage) (ctx : Context) :
    (∀ entry old, storageReader.ReadUpdate s ctx entry.primaryKey = .ok old →
      (storageWriter.WriteUpdate s ctx entry).1 ≠ none ∧
      (storageWriter.WriteUpdate s ctx entry).2 = s ∧
      storageReader.ReadUpdate (storageWriter.WriteUpdate s ctx entry).2 ctx entry.primaryKey
        = .ok old) ∧
    (∀ primaryKey epochInfo old, storageReader.ReadEpochInfo s ctx primaryKey = .ok old →
      (storageWriter.WriteEpochInfo s ctx primaryKey epochInfo).1 ≠ none ∧
      (storageWriter.WriteEpochInfo s ctx primaryKey epochInfo).2 = s ∧
      storageReader.ReadEpochInfo (storageWriter.WriteEpochInfo s ctx primaryKey epochInfo).2
        ctx primaryKey = .ok old) := by
  constructor
  · intro entry old h
    simp only [storageReader, storageWriter, Storage.ReadUpdate, Storage.WriteUpdate] at h ⊢
    cases hf : s.updates.find? (fun e => e.primaryKey == entry.primaryKey) with
    | none => rw [hf] at h; simp at h
    | some e =>
      rw [hf] at h
      simp only [Except.ok.injEq] at h
      simp [hf, h]
  · intro primaryKey epochInfo old h
    simp only [storageReader, storageWriter, Storage.ReadEpochInfo, Storage.WriteEpochInfo] at h ⊢
    cases hf : s.epochs.find? (fun r => r.1 == primaryKey) with
    | none => rw [hf] at h; simp at h
    | some e =>
      rw [hf] at h
      simp only [Except.ok.injEq] at h
      simp [hf, h]

/-- An instance of C7: writing again under the key 7 of `oneRow`. -/
theorem writes_are_append_only_witness :
    storageReader.ReadUpdate oneRow ⟨false⟩ 7 = .ok ⟨7, [0xAA], [1]⟩ ∧
    (storageWriter.WriteUpdate oneRow ⟨false⟩ ⟨7, [0xBB], [2]⟩).1 ≠ none ∧
    (storageWriter.WriteUpdate oneRow ⟨false⟩ ⟨7, [0xBB], [2]⟩).2 = oneRow ∧
    (storageWriter.WriteEpochInfo oneRow ⟨false⟩ 7 ⟨2, [], 2000, [], []⟩).1 ≠ none :=
  ⟨rfl,
   ((writes_are_append_only oneRow ⟨false⟩).1 ⟨7, [0xBB], [2]⟩ ⟨7, [0xAA], [1]⟩ rfl).1,
   ((writes_are_append_only oneRow ⟨false⟩).1 ⟨7, [0xBB], [2]⟩ ⟨7, [0xAA], [1]⟩ rfl).2.1,
   ((writes_are_append_only oneRow ⟨false⟩).2 7 ⟨2, [], 2000, [], []⟩
      ⟨1, [0x10], 1000, [0x20], [0x30]⟩ rfl).1⟩

/-! ## Reads of the tree -/

end DB
